import Mathlib

/-!
Verification of the head-tracking scroll pipeline of the Knock-out extension.

The development shallowly embeds the JavaScript sources:

* `popup.js` (final section, lines 863-1263) — the authoritative popup:
  the `detectMovement` state machine, `detectFacePosition` region scorer,
  `stopTracking`, and the two `setTimeout` timers;
* `popup.js` (HEAD section, lines 1-493) — a drift variant of
  `detectFacePosition` that bounds-checks every pixel index and guards
  `pixelCount > 0`;
* `detectorWorker.js` — the worker-side `detectFacePosition` that filters
  regions while scanning;
* `src/unnamed/part_000` (merged branch) — the tier selector
  (`FaceDetector` API, worker offload, synchronous fallback) and
  `detectFaceInWorker`.

Modelling conventions: JavaScript numbers are embedded as exact rationals
(`ℚ`), decimal literals such as `0.299` denoting the exact rational
`299/1000`.  `Math.sqrt` is embedded as an abstract parameter
`sq : ℚ → ℚ` and `Math.hypot a b` as `sq (a^2 + b^2)`; the two are equal
in exact arithmetic, and every theorem below holds for an arbitrary `sq`.
Pixel buffers are `List ℕ`; an out-of-range read yields `0` (the claims
below constrain buffers to be well-formed wherever this could matter).
DOM status text is abstracted into the inductive `Status`, and the
side-effecting `executeScroll` call into the emitted `Action.scroll`.
-/

unseal Rat.add Rat.mul Rat.sub Rat.inv Rat.ofScientific

set_option maxRecDepth 200000

namespace Knockout

/-- JavaScript `Math.round`: round half toward positive infinity. -/
def jsRound (x : ℚ) : ℤ := (x + 1 / 2).floor

/-- popup.js line 892: `const CALIBRATION_FRAMES = 90`. -/
def CALIBRATION_FRAMES : ℕ := 90

/-- popup.js line 893: `const SMOOTHING_FACTOR = 0.7`. -/
def SMOOTHING_FACTOR : ℚ := 0.7

/-- popup.js lines 1058-1062: the temporal filter.  The first detected
sample is copied; afterwards
`smoothedY = smoothedY * SMOOTHING_FACTOR + faceY * (1 - SMOOTHING_FACTOR)`. -/
def smoothStep (prev : Option ℚ) (raw : ℚ) : ℚ :=
  match prev with
  | none => raw
  | some p => p * SMOOTHING_FACTOR + raw * (1 - SMOOTHING_FACTOR)

/-! ## Region scorer: shared scan geometry

All three drift versions of `detectFacePosition` share the same scan
loops, so the scan geometry is defined once.  A JS loop
`for (let c = start; cond(c); c += 15)` is embedded with a fuel argument;
`w + 1` resp. `h + 1` fuel is sufficient because every coordinate kept by
the condition is below `w` resp. `h` and coordinates strictly increase
(`scanLoop_fuel_stable` below makes the sufficiency precise). -/

/-- Fuel-based embedding of the scan loops of `detectFacePosition`. -/
def scanLoop (stepPx : ℕ) (cond : ℕ → Bool) : ℕ → ℕ → List ℕ
  | _, 0 => []
  | cur, fuel + 1 =>
    if cond cur then cur :: scanLoop stepPx cond (cur + stepPx) fuel else []

/-- Vertical scan coordinates:
`for (let y = Math.floor(height * 0.15); y < height * 0.85; y += 15)`.
`Math.floor(height * 0.15)` is `3 * h / 20` in ℕ, and `y < height * 0.85`
is `20 * y < 17 * h`. -/
def scanYs (h : ℕ) : List ℕ :=
  scanLoop 15 (fun y => decide (20 * y < 17 * h)) (3 * h / 20) (h + 1)

/-- Horizontal scan coordinates:
`for (let x = Math.floor(width * 0.25); x < width * 0.75; x += 15)`. -/
def scanXs (w : ℕ) : List ℕ :=
  scanLoop 15 (fun x => decide (4 * x < 3 * w)) (w / 4) (w + 1)

/-- All scanned region origins, in source order (outer `y`, inner `x`). -/
def scanPairs (w h : ℕ) : List (ℕ × ℕ) :=
  (scanYs h).flatMap (fun y => (scanXs w).map (fun x => (x, y)))

/-- Per-region accumulator: `totalBrightness`, `skinToneCount`,
`pixelCount` of the JS sources. -/
structure RegionStats where
  totalBrightness : ℚ
  skinCount : ℕ
  pixelCount : ℕ
deriving DecidableEq, Repr

/-- Pixel read `data[i]`; buffers in the claims are well-formed, so the
out-of-range default `0` is never exercised where it matters. -/
def pixelAt (data : List ℕ) (i : ℕ) : ℕ := data.getD i 0

/-- The skin-tone predicate shared by all versions:
`r > 95 && g > 40 && b > 20 && max(r,g,b) - min(r,g,b) > 15 &&
|r - g| > 15 && r > g && r > b`. -/
def isSkinTone (r g b : ℕ) : Bool :=
  decide (95 < r) && decide (40 < g) && decide (20 < b) &&
  decide (15 < max r (max g b) - min r (min g b)) &&
  decide (15 < ((r : ℤ) - (g : ℤ)).natAbs) && decide (g < r) && decide (b < r)

/-- One step of the inner pixel loop, shared by `detectorWorker.js`
(lines 36-55) and popup.js final (lines 1148-1165): read `r`, `g`, `b`,
accumulate luma brightness `r*0.299 + g*0.587 + b*0.114`, bump
`pixelCount`, and count the skin-tone predicate. -/
def accumPixel (data : List ℕ) (w x y : ℕ) (acc : RegionStats) (d : ℕ × ℕ) :
    RegionStats :=
  let pixelIndex := ((y + d.2) * w + (x + d.1)) * 4
  let r := pixelAt data pixelIndex
  let g := pixelAt data (pixelIndex + 1)
  let b := pixelAt data (pixelIndex + 2)
  { totalBrightness :=
      acc.totalBrightness + ((r : ℚ) * 0.299 + (g : ℚ) * 0.587 + (b : ℚ) * 0.114),
    skinCount := acc.skinCount + (if isSkinTone r g b then 1 else 0),
    pixelCount := acc.pixelCount + 1 }

/-- The popup HEAD drift (popup.js lines 377-394) guards every read with
`if (pixelIndex + 3 < data.length)`. -/
def accumPixelHead (data : List ℕ) (w x y : ℕ) (acc : RegionStats) (d : ℕ × ℕ) :
    RegionStats :=
  let pixelIndex := ((y + d.2) * w + (x + d.1)) * 4
  if pixelIndex + 3 < data.length then accumPixel data w x y acc d else acc

/-- Pixel offsets of one region, in source order:
`for (dy = 0; dy < 30 && y + dy < height; dy++)
   for (dx = 0; dx < 30 && x + dx < width; dx++)`;
both loop conditions are monotone, so the iteration ranges are exactly
`min 30 (h - y)` and `min 30 (w - x)`. -/
def regionOffsets (w h x y : ℕ) : List (ℕ × ℕ) :=
  (List.range (min 30 (h - y))).flatMap
    (fun dy => (List.range (min 30 (w - x))).map (fun dx => (dx, dy)))

/-- Raw statistics of the region at origin `(x, y)` — worker and popup
final versions (unguarded pixel reads). -/
def regionStats (data : List ℕ) (w h x y : ℕ) : RegionStats :=
  (regionOffsets w h x y).foldl (accumPixel data w x y) ⟨0, 0, 0⟩

/-- Raw statistics of the region at origin `(x, y)` — popup HEAD version
(bounds-checked pixel reads). -/
def regionStatsHead (data : List ℕ) (w h x y : ℕ) : RegionStats :=
  (regionOffsets w h x y).foldl (accumPixelHead data w x y) ⟨0, 0, 0⟩

/-- Worker-side region record (detectorWorker.js lines 64-69): no score
field; `skinFrac` embeds the source's `skinToneRatio`. -/
structure WRegion where
  x : ℚ
  y : ℚ
  brightness : ℚ
  skinFrac : ℚ
deriving DecidableEq, Repr

/-- Popup-side region record (popup.js lines 1171-1177): carries the
pre-distance score `avgBrightness * 0.7 + skinToneRatio * 1000`. -/
structure PRegion where
  x : ℚ
  y : ℚ
  brightness : ℚ
  skinFrac : ℚ
  score : ℚ
deriving DecidableEq, Repr

/-- popup.js final, lines 1142-1177: build the region record pushed for
the origin `(x, y)` (every scanned origin is pushed). -/
def mkPRegion (data : List ℕ) (w h : ℕ) (p : ℕ × ℕ) : PRegion :=
  let st := regionStats data w h p.1 p.2
  let avgBrightness := st.totalBrightness / (st.pixelCount : ℚ)
  let skinFrac := (st.skinCount : ℚ) / (st.pixelCount : ℚ)
  { x := (p.1 : ℚ) + 30 / 2,
    y := (p.2 : ℚ) + 30 / 2,
    brightness := avgBrightness,
    skinFrac := skinFrac,
    score := avgBrightness * 0.7 + skinFrac * 1000 }

/-- popup.js HEAD, lines 595-605: same record, but from the
bounds-checked statistics. -/
def mkPRegionHead (data : List ℕ) (w h : ℕ) (p : ℕ × ℕ) : PRegion :=
  let st := regionStatsHead data w h p.1 p.2
  let avgBrightness := st.totalBrightness / (st.pixelCount : ℚ)
  let skinFrac := (st.skinCount : ℚ) / (st.pixelCount : ℚ)
  { x := (p.1 : ℚ) + 30 / 2,
    y := (p.2 : ℚ) + 30 / 2,
    brightness := avgBrightness,
    skinFrac := skinFrac,
    score := avgBrightness * 0.7 + skinFrac * 1000 }

/-- The survival filter (popup.js lines 1182-1184, worker lines 59-63):
`brightness > 60 && brightness < 220 && skinToneRatio > 0.1`. -/
def qualifies (r : PRegion) : Bool :=
  decide (60 < r.brightness) && decide (r.brightness < 220) &&
  decide ((0.1 : ℚ) < r.skinFrac)

/-- popup.js final, region collection phase: every scanned origin yields
a pushed region. -/
def popupRegions (data : List ℕ) (w h : ℕ) : List PRegion :=
  (scanPairs w h).map (mkPRegion data w h)

/-- popup.js HEAD, region collection phase: a region is pushed only under
the `pixelCount > 0` guard (lines 595-605). -/
def popupRegionsHead (data : List ℕ) (w h : ℕ) : List PRegion :=
  (scanPairs w h).filterMap (fun p =>
    if 0 < (regionStatsHead data w h p.1 p.2).pixelCount then
      some (mkPRegionHead data w h p)
    else none)

/-- JavaScript `Math.hypot a b`, expressed through the abstract square
root as `sq (a^2 + b^2)`. -/
def jsHypot (sq : ℚ → ℚ) (a b : ℚ) : ℚ := sq (a ^ 2 + b ^ 2)

/-- popup.js lines 1191-1203: final score of a surviving region —
`region.score - distanceFromCenter * 0.1` with
`distanceFromCenter = Math.sqrt((x - centerX)^2 + (y - centerY)^2)`,
`centerX = width / 2`, `centerY = height * 0.4`. -/
def pFinalScore (sq : ℚ → ℚ) (w h : ℕ) (r : PRegion) : ℚ :=
  let centerX : ℚ := (w : ℚ) / 2
  let centerY : ℚ := (h : ℚ) * 0.4
  let distanceFromCenter := sq ((r.x - centerX) ^ 2 + (r.y - centerY) ^ 2)
  r.score - distanceFromCenter * 0.1

/-- detectorWorker.js lines 81-84: the worker computes the score inline —
`brightness * 0.7 + skinToneRatio * 1000 - Math.hypot(x - centerX, y - centerY) * 0.1`. -/
def wScore (sq : ℚ → ℚ) (w h : ℕ) (r : WRegion) : ℚ :=
  let centerX : ℚ := (w : ℚ) / 2
  let centerY : ℚ := (h : ℚ) * 0.4
  r.brightness * 0.7 + r.skinFrac * 1000 -
    jsHypot sq (r.x - centerX) (r.y - centerY) * 0.1

/-- JS comparison `s > bestScore` where `bestScore` starts at
`-Infinity` (embedded as `none`). -/
def jsGtOpt (s : ℚ) (best : Option ℚ) : Bool :=
  match best with
  | none => true
  | some b => decide (b < s)

/-- popup.js lines 1194-1209: the best-region selection loop
(`bestScore = -Infinity`, replace on strict `>`). -/
def pSelLoop (sq : ℚ → ℚ) (w h : ℕ) :
    List PRegion → PRegion → Option ℚ → PRegion × Option ℚ
  | [], best, bestScore => (best, bestScore)
  | r :: rs, best, bestScore =>
    let finalScore := pFinalScore sq w h r
    if jsGtOpt finalScore bestScore then pSelLoop sq w h rs r (some finalScore)
    else pSelLoop sq w h rs best bestScore

/-- detectorWorker.js lines 78-89: the worker's selection loop
(`bestRegion = null`, `bestScore = -Infinity`). -/
def wSelLoop (sq : ℚ → ℚ) (w h : ℕ) :
    List WRegion → Option WRegion → Option ℚ → Option WRegion × Option ℚ
  | [], best, bestScore => (best, bestScore)
  | r :: rs, best, bestScore =>
    let score := wScore sq w h r
    if jsGtOpt score bestScore then wSelLoop sq w h rs (some r) (some score)
    else wSelLoop sq w h rs best bestScore

/-- popup.js final `detectFacePosition` (lines 1136-1212): collect all
regions, filter, return `null` on empty, otherwise run the selection
loop seeded with `faceRegions[0]` and return `bestRegion.y`. -/
def popupDetect (sq : ℚ → ℚ) (data : List ℕ) (w h : ℕ) : Option ℚ :=
  let faceRegions := (popupRegions data w h).filter qualifies
  match faceRegions with
  | [] => none
  | r0 :: rs => some ((pSelLoop sq w h (r0 :: rs) r0 none).1).y

/-- popup.js HEAD `detectFacePosition` (lines 362-444): identical filter
and selection, over the guarded region list. -/
def popupDetectHead (sq : ℚ → ℚ) (data : List ℕ) (w h : ℕ) : Option ℚ :=
  let faceRegions := (popupRegionsHead data w h).filter qualifies
  match faceRegions with
  | [] => none
  | r0 :: rs => some ((pSelLoop sq w h (r0 :: rs) r0 none).1).y

/-- detectorWorker.js lines 30-72: regions are filtered while scanning
and only surviving ones are pushed. -/
def workerRegions (data : List ℕ) (w h : ℕ) : List WRegion :=
  (scanPairs w h).filterMap (fun p =>
    let st := regionStats data w h p.1 p.2
    let avgBrightness := st.totalBrightness / (st.pixelCount : ℚ)
    let skinFrac := (st.skinCount : ℚ) / (st.pixelCount : ℚ)
    if decide (60 < avgBrightness) && decide (avgBrightness < 220) &&
        decide ((0.1 : ℚ) < skinFrac) then
      some { x := (p.1 : ℚ) + 30 / 2, y := (p.2 : ℚ) + 30 / 2,
             brightness := avgBrightness, skinFrac := skinFrac }
    else none)

/-- detectorWorker.js `detectFacePosition` (lines 10-91): filter regions
while scanning, return `null` on empty, otherwise select and return
`bestRegion ? bestRegion.y : null`. -/
def workerDetect (sq : ℚ → ℚ) (data : List ℕ) (w h : ℕ) : Option ℚ :=
  match workerRegions data w h with
  | [] => none
  | r0 :: rs =>
    match (wSelLoop sq w h (r0 :: rs) none none).1 with
    | none => none
    | some r => some r.y

/-! ## Calibration / tracking state machine (popup.js final version) -/

/-- Abstraction of the `updateStatus` DOM text states reachable from the
tracking loop. -/
inductive Status where
  | ready
  | calibratePrompt
  | calibrating (progress : ℤ)
  | trackingActive
  | scrolling (down : Bool) (px : ℤ)
  | noFace
  | stopped
deriving DecidableEq, Repr

/-- Observable side effects of a step: `executeScroll(scrollDirection)`. -/
inductive Action where
  | scroll (amount : ℤ)
deriving DecidableEq, Repr

/-- The mutable session state of popup.js (lines 873-899): tracking
flags, calibration state, smoothing state, scroll lock, and the two
pending `setTimeout` callbacks (lock release, status reset). -/
structure TrackState where
  isTracking : Bool
  stream : Bool
  animationId : Bool
  frameCount : ℕ
  calibrationData : List ℚ
  baselineY : Option ℚ
  smoothedY : Option ℚ
  scrollLock : Bool
  lockTimerPending : Bool
  statusTimerPending : Bool
  statusSt : Status
deriving DecidableEq, Repr

/-- Session state right after the reset in `startTracking`
(popup.js lines 993-1006). -/
def initState : TrackState :=
  { isTracking := true, stream := true, animationId := false,
    frameCount := 0, calibrationData := [], baselineY := none,
    smoothedY := none, scrollLock := false, lockTimerPending := false,
    statusTimerPending := false, statusSt := Status.calibratePrompt }

/-- popup.js line 1093: `scrollIntensity = Math.min(Math.abs(deltaY) / MOVEMENT_THRESHOLD, 4)`. -/
def scrollIntensity (deltaY th : ℚ) : ℚ := min (|deltaY| / th) 4

/-- popup.js line 1094: `scrollAmount = Math.round(scrollIntensity * SCROLL_SPEED)`. -/
def scrollAmount (deltaY th sp : ℚ) : ℤ := jsRound (scrollIntensity deltaY th * sp)

/-- popup.js line 1095: `scrollDirection = deltaY > 0 ? scrollAmount : -scrollAmount`. -/
def scrollSigned (deltaY th sp : ℚ) : ℤ :=
  if 0 < deltaY then scrollAmount deltaY th sp else -(scrollAmount deltaY th sp)

/-- The body of `detectMovement` (popup.js lines 1048-1128) for one frame
whose detection result is `det`, with the live settings
`th = MOVEMENT_THRESHOLD` and `sp = SCROLL_SPEED`. -/
def detectBody (th sp : ℚ) (s : TrackState) (det : Option ℚ) :
    TrackState × List Action :=
  match det with
  | some faceY =>
    let sm := smoothStep s.smoothedY faceY
    let fc := s.frameCount + 1
    if fc ≤ CALIBRATION_FRAMES then
      let cd := s.calibrationData ++ [sm]
      let progress := jsRound (((fc : ℚ) / (CALIBRATION_FRAMES : ℚ)) * 100)
      if fc = CALIBRATION_FRAMES then
        ({ s with smoothedY := some sm, frameCount := fc, calibrationData := cd,
                  baselineY := some (cd.sum / (cd.length : ℚ)),
                  statusSt := Status.trackingActive }, [])
      else
        ({ s with smoothedY := some sm, frameCount := fc, calibrationData := cd,
                  statusSt := Status.calibrating progress }, [])
    else
      match s.baselineY, s.scrollLock with
      | some b, false =>
        let deltaY := sm - b
        if th < |deltaY| then
          ({ s with smoothedY := some sm, frameCount := fc, scrollLock := true,
                    statusSt := Status.scrolling (0 < deltaY) (jsRound |deltaY|),
                    statusTimerPending := true, lockTimerPending := true },
           [Action.scroll (scrollSigned deltaY th sp)])
        else
          ({ s with smoothedY := some sm, frameCount := fc }, [])
      | _, _ => ({ s with smoothedY := some sm, frameCount := fc }, [])
  | none =>
    if CALIBRATION_FRAMES < s.frameCount then
      ({ s with statusSt := Status.noFace }, [])
    else (s, [])

/-- One `detectMovement` invocation: early-return when not tracking,
otherwise run the body and re-arm the animation frame. -/
def detectStep (th sp : ℚ) (s : TrackState) (det : Option ℚ) :
    TrackState × List Action :=
  if s.isTracking then
    let r := detectBody th sp s det
    ({ r.1 with animationId := true }, r.2)
  else (s, [])

/-- `stopTracking` (popup.js lines 1021-1043): clear the tracking flag,
stop the stream, cancel the animation frame, reset the UI.  The two
`setTimeout` callbacks are NOT cleared. -/
def stopTracking (s : TrackState) : TrackState :=
  { s with isTracking := false, stream := false, animationId := false,
           statusSt := Status.stopped }

/-- The lock-release `setTimeout` callback (popup.js lines 1112-1114):
unconditionally `scrollLock = false`. -/
def lockTimerFire (s : TrackState) : TrackState :=
  { s with scrollLock := false, lockTimerPending := false }

/-- The status-reset `setTimeout` callback (popup.js lines 1105-1109):
guarded by `isTracking && frameCount > CALIBRATION_FRAMES`. -/
def statusTimerFire (s : TrackState) : TrackState :=
  if s.isTracking ∧ CALIBRATION_FRAMES < s.frameCount then
    { s with statusTimerPending := false, statusSt := Status.trackingActive }
  else { s with statusTimerPending := false }

/-- Events a live session can process: a frame with its detection result,
the firing of either timer, or a stop request. -/
inductive Event where
  | frame (det : Option ℚ)
  | lockFire
  | statusFire
  | stopEv
deriving DecidableEq, Repr

/-- Dispatch one event. -/
def stepEvent (th sp : ℚ) (s : TrackState) : Event → TrackState × List Action
  | Event.frame det => detectStep th sp s det
  | Event.lockFire => (lockTimerFire s, [])
  | Event.statusFire => (statusTimerFire s, [])
  | Event.stopEv => (stopTracking s, [])

/-- Process a sequence of events, concatenating the emitted actions. -/
def runEvents (th sp : ℚ) (s : TrackState) : List Event → TrackState × List Action
  | [] => (s, [])
  | e :: es =>
    let r := stepEvent th sp s e
    let r2 := runEvents th sp r.1 es
    (r2.1, r.2 ++ r2.2)

/-- Process a sequence of frames. -/
def runFrames (th sp : ℚ) (s : TrackState) (dets : List (Option ℚ)) :
    TrackState × List Action :=
  runEvents th sp s (dets.map Event.frame)

/-- The smoothing accumulator after a list of detected raw samples. -/
def smoothAcc (p : Option ℚ) (l : List ℚ) : Option ℚ :=
  l.foldl (fun a r => some (smoothStep a r)) p

/-- The full smoothed sequence produced from a list of detected raw
samples. -/
def smoothTrace (p : Option ℚ) : List ℚ → List ℚ
  | [] => []
  | r :: rs =>
    let sm := smoothStep p r
    sm :: smoothTrace (some sm) rs

/-! ## Tier selector (src/unnamed/part_000, merged branch) -/

/-- Environment of one frame of the merged `detectMovement`
(part_000 lines 399-434): whether the `FaceDetector` capability exists
and what box it returns, whether the worker channel was established and
what it would answer, and what the synchronous scorer would return on the
analysis canvas. -/
structure DetectEnv where
  faceBox : Option (Option (ℚ × ℚ))
  workerChan : Option (Option ℚ)
  syncDetect : Option ℚ
  canvasH : ℚ
  videoH : ℚ
deriving DecidableEq

/-- `detectFaceInWorker` (part_000 lines 67-78): with no established
channel the promise resolves to `null`; otherwise the worker answers. -/
def detectFaceInWorker (chan : Option (Option ℚ)) : Option ℚ :=
  match chan with
  | none => none
  | some res => res

/-- Tier 1 (part_000 lines 406-418): the `FaceDetector` result converted
into canvas coordinates, `(box.y + box.height / 2) * (canvas.height / video.videoHeight)`;
`none` when the capability is absent, throws, or finds no face. -/
def tier1Y (env : DetectEnv) : Option ℚ :=
  match env.faceBox with
  | some (some box) => some ((box.1 + box.2 / 2) * (env.canvasH / env.videoH))
  | _ => none

/-- The full tier chain of the merged `detectMovement`
(part_000 lines 403-433): tier 1, then the worker offload, then —
only when no worker channel exists — the synchronous scorer. -/
def tierDetect (env : DetectEnv) : Option ℚ :=
  match tier1Y env with
  | some y => some y
  | none =>
    match detectFaceInWorker env.workerChan with
    | some y => some y
    | none =>
      match env.workerChan with
      | none => env.syncDetect
      | some _ => none

/-! ## Spec-side definitions for comparison -/

/-- The gesture translation exactly as the spec words it:
`magnitude = round(min(|d| / t, 4) * s)`, direction `down` iff `d > 0`
(`true` in the second component means `down`). -/
def specTranslate (d t s : ℚ) : ℤ × Bool :=
  (jsRound (min (|d| / t) 4 * s), decide (0 < d))

/-- Conversion from the popup region record to the worker one (the worker
record simply lacks the cached score field). -/
def WRegion.ofP (r : PRegion) : WRegion :=
  { x := r.x, y := r.y, brightness := r.brightness, skinFrac := r.skinFrac }

/-- First-wins argmax: the reference description of the JS selection
loops, which replace the running best only on a strict `>`. -/
def argmaxFirst {α : Type} (f : α → ℚ) : α → List α → α
  | b, [] => b
  | b, r :: rs => if f b < f r then argmaxFirst f r rs else argmaxFirst f b rs

/-- Invariant tying a session state to the list of raw detected samples
processed so far: the frame counter counts detected samples, the
smoothing state is the fold of the temporal filter, the calibration
window holds the first `CALIBRATION_FRAMES` smoothed samples, and the
baseline is their arithmetic mean once (and only once) the window is
full. -/
def CalibInv (s : TrackState) (raws : List ℚ) : Prop :=
  s.isTracking = true ∧
  s.frameCount = raws.length ∧
  s.smoothedY = smoothAcc none raws ∧
  s.calibrationData = (smoothTrace none raws).take CALIBRATION_FRAMES ∧
  s.baselineY =
    (if CALIBRATION_FRAMES ≤ raws.length then
      some (((smoothTrace none raws).take CALIBRATION_FRAMES).sum /
        (CALIBRATION_FRAMES : ℚ))
    else none)

/-- The raw input sequence `[10, 20, 20, 20, ...]` of the temporal-filter
test property. -/
def c5raw (i : ℕ) : ℚ := if i = 0 then 10 else 20

/-- The smoothed sequence the temporal filter produces on `c5raw`. -/
def c5smoothed : ℕ → ℚ
  | 0 => smoothStep none (c5raw 0)
  | n + 1 => smoothStep (some (c5smoothed n)) (c5raw (n + 1))

/-! ## Concrete inputs used to instantiate the theorems -/

/-- A 4x4 all-black RGBA buffer: no region can qualify. -/
def zeroBuf : List ℕ := List.replicate 64 0

/-- A 4x4 RGBA buffer of the uniform skin-like colour (150, 100, 50):
every scanned region qualifies. -/
def skinBuf : List ℕ := (List.replicate 16 [150, 100, 50, 255]).flatten

/-- A post-calibration state: 95 detected frames, baseline 100,
smoothed position 100. -/
def activeState : TrackState :=
  { initState with frameCount := 95, baselineY := some 100, smoothedY := some 100 }

/-- An active state with a scroll in flight: the lock is held and both
timers are pending. -/
def lockedState : TrackState :=
  { initState with
    frameCount := 95
    baselineY := some 100
    smoothedY := some 100
    scrollLock := true
    lockTimerPending := true
    statusTimerPending := true }

/-- A frame environment with no detection capability at all. -/
def bareEnv : DetectEnv :=
  { faceBox := none, workerChan := none, syncDetect := none, canvasH := 1, videoH := 1 }

/-! ## Helper lemmas -/

/-- Every coordinate produced by a scan loop satisfies the loop
condition. -/
theorem scanLoop_mem_cond {stepPx : ℕ} {cond : ℕ → Bool} :
    ∀ {fuel cur c : ℕ}, c ∈ scanLoop stepPx cond cur fuel → cond c = true := by
  intro fuel
  induction fuel with
  | zero => intro cur c hm; simp [scanLoop] at hm
  | succ n ih =>
    intro cur c hm
    rw [scanLoop] at hm
    by_cases hc : cond cur
    · rw [if_pos hc] at hm
      rcases List.mem_cons.mp hm with hm | hm
      · exact hm ▸ hc
      · exact ih hm
    · rw [if_neg hc] at hm
      simp at hm

/-- A scan loop is insensitive to extra fuel once the fuel covers the
distance to any bound past which the condition fails; this justifies the
`h + 1` and `w + 1` fuels used in `scanYs` and `scanXs`. -/
theorem scanLoop_fuel_stable {stepPx : ℕ} (hstep : 0 < stepPx) {cond : ℕ → Bool}
    {bound : ℕ} (hb : ∀ c, cond c = true → c < bound) :
    ∀ (fuel₁ : ℕ) {fuel₂ cur : ℕ}, bound - cur ≤ fuel₁ → bound - cur ≤ fuel₂ →
      scanLoop stepPx cond cur fuel₁ = scanLoop stepPx cond cur fuel₂ := by
  intro fuel₁
  induction fuel₁ with
  | zero =>
    intro fuel₂ cur h1 h2
    have hc : cond cur = false := by
      cases hcc : cond cur
      · rfl
      · exact absurd (hb cur hcc) (by omega)
    cases fuel₂ with
    | zero => rfl
    | succ m => simp [scanLoop, hc]
  | succ n ih =>
    intro fuel₂ cur h1 h2
    cases fuel₂ with
    | zero =>
      have hc : cond cur = false := by
        cases hcc : cond cur
        · rfl
        · exact absurd (hb cur hcc) (by omega)
      simp [scanLoop, hc]
    | succ m =>
      by_cases hc : cond cur
      · have hlt := hb cur hc
        have hrec : bound - (cur + stepPx) ≤ n := by omega
        simp only [scanLoop, if_pos hc]
        exact congrArg (List.cons cur) (ih hrec (by omega))
      · simp only [scanLoop, if_neg hc]

/-- Membership in the scanned origins yields both loop conditions. -/
theorem scanPairs_cond {w h x y : ℕ} (hmem : (x, y) ∈ scanPairs w h) :
    4 * x < 3 * w ∧ 20 * y < 17 * h := by
  simp only [scanPairs, List.mem_flatMap, List.mem_map, Prod.mk.injEq] at hmem
  obtain ⟨y', hy', x', hx', rfl, rfl⟩ := hmem
  exact ⟨of_decide_eq_true (scanLoop_mem_cond hx'),
    of_decide_eq_true (scanLoop_mem_cond hy')⟩

/-- Fold congruence: two step functions that agree on the list's elements
produce the same fold. -/
theorem foldl_congr_mem {α β : Type} {f g : β → α → β} :
    ∀ {l : List α} {init : β}, (∀ a ∈ l, ∀ acc, f acc a = g acc a) →
      l.foldl f init = l.foldl g init := by
  intro l
  induction l with
  | nil => intro init _; rfl
  | cons a l ih =>
    intro init hfg
    simp only [List.foldl_cons]
    rw [hfg a (List.mem_cons_self a l)]
    exact ih (fun b hb acc => hfg b (List.mem_cons_of_mem a hb) acc)

/-- A `filterMap` whose function is `some` on every element is a `map`. -/
theorem filterMap_eq_map_of_some {α β : Type} {F : α → Option β} {G : α → β} :
    ∀ {l : List α}, (∀ a ∈ l, F a = some (G a)) → l.filterMap F = l.map G := by
  intro l
  induction l with
  | nil => intro _; rfl
  | cons a l ih =>
    intro hFG
    rw [List.filterMap_cons, hFG a (List.mem_cons_self a l), List.map_cons,
      ih (fun b hb => hFG b (List.mem_cons_of_mem a hb))]

/-- Filtering after a map, then mapping again, is a single `filterMap`:
this relates the popup's collect-then-filter region pipeline to the
worker's filter-as-you-scan pipeline. -/
theorem filter_map_filterMap {α β γ : Type} (f : α → β) (q : β → Bool) (g : β → γ) :
    ∀ l : List α, ((l.map f).filter q).map g
      = l.filterMap (fun a => if q (f a) then some (g (f a)) else none) := by
  intro l
  induction l with
  | nil => rfl
  | cons a l ih =>
    rw [List.map_cons, List.filter_cons, List.filterMap_cons]
    by_cases hq : q (f a)
    · rw [if_pos hq, if_pos hq, List.map_cons, ih]
    · rw [if_neg hq, if_neg hq, ih]

/-- The pixel fold increases `pixelCount` by exactly the number of pixels
visited. -/
theorem foldl_accumPixel_pixelCount (data : List ℕ) (w x y : ℕ) :
    ∀ (l : List (ℕ × ℕ)) (acc : RegionStats),
      (l.foldl (accumPixel data w x y) acc).pixelCount = acc.pixelCount + l.length := by
  intro l
  induction l with
  | nil => intro acc; simp
  | cons d l ih =>
    intro acc
    rw [List.foldl_cons, ih]
    simp [accumPixel]
    omega

/-- Every scanned origin's region visits at least one pixel: the scan
conditions put the origin strictly inside the frame, so the inner loops
run at least once. -/
theorem regionStats_pixelCount_pos (data : List ℕ) {w h x y : ℕ}
    (hx : 4 * x < 3 * w) (hy : 20 * y < 17 * h) :
    0 < (regionStats data w h x y).pixelCount := by
  have hxw : x < w := by omega
  have hyh : y < h := by omega
  rw [regionStats, foldl_accumPixel_pixelCount]
  have hmem : ((0, 0) : ℕ × ℕ) ∈ regionOffsets w h x y := by
    simp only [regionOffsets, List.mem_flatMap, List.mem_map, List.mem_range]
    exact ⟨0, by omega, 0, by omega, rfl⟩
  have := List.length_pos.mpr (List.ne_nil_of_mem hmem)
  omega

/-- Offsets of a scanned region stay strictly inside the frame. -/
theorem regionOffsets_lt {w h x y : ℕ}
    {d : ℕ × ℕ} (hd : d ∈ regionOffsets w h x y) :
    x + d.1 < w ∧ y + d.2 < h := by
  simp only [regionOffsets, List.mem_flatMap, List.mem_map, List.mem_range] at hd
  obtain ⟨dy, hdy, dx, hdx, hdd⟩ := hd
  subst hdd
  have h1 := (Nat.lt_min.mp hdx).2
  have h2 := (Nat.lt_min.mp hdy).2
  constructor
  · show x + dx < w
    omega
  · show y + dy < h
    omega

/-- On a well-formed buffer (length exactly `4 * width * height`) the
HEAD drift's bounds check always passes, so the guarded and unguarded
region statistics coincide. -/
theorem regionStatsHead_eq (data : List ℕ) {w h x y : ℕ}
    (hx : 4 * x < 3 * w) (hy : 20 * y < 17 * h)
    (hl : data.length = 4 * w * h) :
    regionStatsHead data w h x y = regionStats data w h x y := by
  rw [regionStatsHead, regionStats]
  apply foldl_congr_mem
  intro d hd acc
  obtain ⟨hdx, hdy⟩ := regionOffsets_lt hd
  rw [accumPixelHead, if_pos]
  have hstep : (y + d.2) * w + (x + d.1) + 1 ≤ h * w := by
    calc (y + d.2) * w + (x + d.1) + 1 ≤ (y + d.2) * w + w := by omega
    _ = ((y + d.2) + 1) * w := by ring
    _ ≤ h * w := Nat.mul_le_mul_right w (by omega)
  have hcomm : h * w = w * h := Nat.mul_comm h w
  have h4 : 4 * w * h = 4 * (w * h) := by ring
  rw [hl]
  omega

/-- The result of `argmaxFirst` is one of the candidates. -/
theorem argmaxFirst_mem {α : Type} (f : α → ℚ) :
    ∀ (l : List α) (b : α), argmaxFirst f b l ∈ b :: l := by
  intro l
  induction l with
  | nil => intro b; simp [argmaxFirst]
  | cons r rs ih =>
    intro b
    rw [argmaxFirst]
    by_cases hlt : f b < f r
    · rw [if_pos hlt]
      have := ih r
      simp only [List.mem_cons] at this ⊢
      tauto
    · rw [if_neg hlt]
      have := ih b
      simp only [List.mem_cons] at this ⊢
      tauto

/-- The result of `argmaxFirst` majorises every candidate. -/
theorem argmaxFirst_le {α : Type} (f : α → ℚ) :
    ∀ (l : List α) (b : α), ∀ r ∈ b :: l, f r ≤ f (argmaxFirst f b l) := by
  intro l
  induction l with
  | nil => intro b r hr; simp at hr; subst hr; simp [argmaxFirst]
  | cons a rs ih =>
    intro b r hr
    rw [argmaxFirst]
    simp only [List.mem_cons] at hr
    by_cases hlt : f b < f a
    · rw [if_pos hlt]
      rcases hr with hr | hr | hr
      · rw [hr]
        exact le_of_lt (lt_of_lt_of_le hlt (ih a a (List.mem_cons_self a rs)))
      · rw [hr]
        exact ih a a (List.mem_cons_self a rs)
      · exact ih a r (List.mem_cons_of_mem a hr)
    · rw [if_neg hlt]
      rcases hr with hr | hr | hr
      · rw [hr]
        exact ih b b (List.mem_cons_self b rs)
      · rw [hr]
        exact le_trans (le_of_not_lt hlt) (ih b b (List.mem_cons_self b rs))
      · exact ih b r (List.mem_cons_of_mem b hr)

/-- Congruence for `argmaxFirst` under a pointwise-equal score. -/
theorem argmaxFirst_congr {α : Type} {f g : α → ℚ} :
    ∀ {l : List α} {b : α}, f b = g b → (∀ r ∈ l, f r = g r) →
      argmaxFirst f b l = argmaxFirst g b l := by
  intro l
  induction l with
  | nil => intro b _ _; rfl
  | cons a rs ih =>
    intro b hfb hfl
    have hfa : f a = g a := hfl a (List.mem_cons_self a rs)
    have hrest : ∀ r ∈ rs, f r = g r := fun r hr => hfl r (List.mem_cons_of_mem a hr)
    rw [argmaxFirst, argmaxFirst, hfb, hfa]
    by_cases hlt : g b < g a
    · rw [if_pos hlt, if_pos hlt, ih hfa hrest]
    · rw [if_neg hlt, if_neg hlt, ih hfb hrest]

/-- `argmaxFirst` commutes with mapping the candidates. -/
theorem argmaxFirst_map {α β : Type} (f : β → ℚ) (t : α → β) :
    ∀ (l : List α) (b : α),
      argmaxFirst f (t b) (l.map t) = t (argmaxFirst (fun a => f (t a)) b l) := by
  intro l
  induction l with
  | nil => intro b; rfl
  | cons a rs ih =>
    intro b
    rw [List.map_cons, argmaxFirst, argmaxFirst]
    by_cases hlt : f (t b) < f (t a)
    · rw [if_pos hlt, if_pos hlt, ih]
    · rw [if_neg hlt, if_neg hlt, ih]

/-- The popup selection loop computes the first-wins argmax once the
running best's score is cached. -/
theorem pSelLoop_inv (sq : ℚ → ℚ) (w h : ℕ) :
    ∀ (rs : List PRegion) (b : PRegion),
      pSelLoop sq w h rs b (some (pFinalScore sq w h b))
        = (argmaxFirst (pFinalScore sq w h) b rs,
           some (pFinalScore sq w h (argmaxFirst (pFinalScore sq w h) b rs))) := by
  intro rs
  induction rs with
  | nil => intro b; rfl
  | cons r rs ih =>
    intro b
    rw [pSelLoop, argmaxFirst]
    by_cases hlt : pFinalScore sq w h b < pFinalScore sq w h r
    · rw [if_pos (by simp [jsGtOpt, hlt]), if_pos hlt]
      exact ih r
    · rw [if_neg (by simp [jsGtOpt, hlt]), if_neg hlt]
      exact ih b

/-- The worker selection loop computes the first-wins argmax once a best
region is installed. -/
theorem wSelLoop_inv (sq : ℚ → ℚ) (w h : ℕ) :
    ∀ (rs : List WRegion) (b : WRegion),
      wSelLoop sq w h rs (some b) (some (wScore sq w h b))
        = (some (argmaxFirst (wScore sq w h) b rs),
           some (wScore sq w h (argmaxFirst (wScore sq w h) b rs))) := by
  intro rs
  induction rs with
  | nil => intro b; rfl
  | cons r rs ih =>
    intro b
    rw [wSelLoop, argmaxFirst]
    by_cases hlt : wScore sq w h b < wScore sq w h r
    · rw [if_pos (by simp [jsGtOpt, hlt]), if_pos hlt]
      exact ih r
    · rw [if_neg (by simp [jsGtOpt, hlt]), if_neg hlt]
      exact ih b

/-- Closed form of the popup scorer: `none` on an empty survivor list,
otherwise the first-wins argmax of the survivors. -/
theorem popupDetect_eq (sq : ℚ → ℚ) (data : List ℕ) (w h : ℕ) :
    popupDetect sq data w h
      = (match (popupRegions data w h).filter qualifies with
          | [] => none
          | r0 :: rs => some (argmaxFirst (pFinalScore sq w h) r0 rs).y) := by
  rw [popupDetect]
  cases hfr : (popupRegions data w h).filter qualifies with
  | nil => rfl
  | cons r0 rs =>
    simp only
    rw [pSelLoop, if_pos (by simp [jsGtOpt]), pSelLoop_inv]

/-- Every region the popup pushes carries the cached score
`brightness * 0.7 + skinToneRatio * 1000`. -/
theorem popupRegions_score (data : List ℕ) (w h : ℕ) :
    ∀ r ∈ popupRegions data w h, r.score = r.brightness * 0.7 + r.skinFrac * 1000 := by
  intro r hr
  simp only [popupRegions, List.mem_map] at hr
  obtain ⟨p, _, rfl⟩ := hr
  rfl

/-- The worker's inline-filtered region list is the popup's collected
list, filtered and stripped of the score cache. -/
theorem workerRegions_eq (data : List ℕ) (w h : ℕ) :
    workerRegions data w h
      = (((popupRegions data w h).filter qualifies).map WRegion.ofP) := by
  rw [popupRegions, filter_map_filterMap]
  rfl

/-- On the popup's region records, the worker's inline score is exactly
the popup's final score. -/
theorem wScore_ofP (sq : ℚ → ℚ) (w h : ℕ) {data : List ℕ} {r : PRegion}
    (hr : r ∈ popupRegions data w h) :
    wScore sq w h (WRegion.ofP r) = pFinalScore sq w h r := by
  rw [wScore, pFinalScore, popupRegions_score data w h r hr]
  rfl

/-- The worker scorer and the popup final scorer agree on every buffer
(well-formed or not: both read out of range the same way in this model). -/
theorem workerDetect_eq_popupDetect (sq : ℚ → ℚ) (data : List ℕ) (w h : ℕ) :
    workerDetect sq data w h = popupDetect sq data w h := by
  rw [popupDetect_eq, workerDetect, workerRegions_eq]
  cases hfr : (popupRegions data w h).filter qualifies with
  | nil => rfl
  | cons r0 rs =>
    have hmem : ∀ r ∈ r0 :: rs, r ∈ popupRegions data w h := by
      intro r hr
      exact List.mem_of_mem_filter (hfr ▸ hr)
    simp only [List.map_cons]
    rw [wSelLoop, if_pos (by simp [jsGtOpt]), wSelLoop_inv, argmaxFirst_map]
    have hcongr : argmaxFirst (fun a => wScore sq w h (WRegion.ofP a)) r0 rs
        = argmaxFirst (pFinalScore sq w h) r0 rs := by
      apply argmaxFirst_congr
      · exact wScore_ofP sq w h (hmem r0 (List.mem_cons_self r0 rs))
      · intro r hr
        exact wScore_ofP sq w h (hmem r (List.mem_cons_of_mem r0 hr))
    rw [hcongr]
    rfl

/-- On a well-formed buffer the HEAD drift collects exactly the same
regions as the final popup version: the bounds check always passes and
the `pixelCount > 0` guard is never needed. -/
theorem popupRegionsHead_eq (data : List ℕ) (w h : ℕ)
    (hl : data.length = 4 * w * h) :
    popupRegionsHead data w h = popupRegions data w h := by
  rw [popupRegionsHead, popupRegions]
  apply filterMap_eq_map_of_some
  intro p hp
  obtain ⟨x, y⟩ := p
  obtain ⟨hx, hy⟩ := scanPairs_cond hp
  have hstats : regionStatsHead data w h x y = regionStats data w h x y :=
    regionStatsHead_eq data hx hy hl
  have hpos : 0 < (regionStatsHead data w h x y).pixelCount := by
    rw [hstats]
    exact regionStats_pixelCount_pos data hx hy
  show (if 0 < (regionStatsHead data w h x y).pixelCount then
      some (mkPRegionHead data w h (x, y)) else none) = some (mkPRegion data w h (x, y))
  rw [if_pos hpos]
  simp only [mkPRegionHead, mkPRegion]
  rw [show regionStatsHead data w h (x, y).1 (x, y).2
    = regionStats data w h (x, y).1 (x, y).2 from hstats]

/-- On a well-formed buffer the HEAD scorer agrees with the final popup
scorer. -/
theorem popupDetectHead_eq (sq : ℚ → ℚ) (data : List ℕ) (w h : ℕ)
    (hl : data.length = 4 * w * h) :
    popupDetectHead sq data w h = popupDetect sq data w h := by
  rw [popupDetectHead, popupDetect, popupRegionsHead_eq data w h hl]

/-! ## State machine lemmas -/

/-- Running an appended event list splits into two runs. -/
theorem runEvents_append (th sp : ℚ) :
    ∀ (l₁ : List Event) (s : TrackState) (l₂ : List Event),
      runEvents th sp s (l₁ ++ l₂)
        = ((runEvents th sp (runEvents th sp s l₁).1 l₂).1,
           (runEvents th sp s l₁).2 ++ (runEvents th sp (runEvents th sp s l₁).1 l₂).2) := by
  intro l₁
  induction l₁ with
  | nil => intro s l₂; simp [runEvents]
  | cons e l ih =>
    intro s l₂
    simp only [List.cons_append, runEvents, List.append_eq]
    rw [ih]
    simp [List.append_assoc]

/-- Appending one raw sample to the smoothing fold. -/
theorem smoothAcc_append (p : Option ℚ) (l : List ℚ) (r : ℚ) :
    smoothAcc p (l ++ [r]) = some (smoothStep (smoothAcc p l) r) := by
  simp [smoothAcc, List.foldl_append]

/-- Appending one raw sample to the smoothed trace. -/
theorem smoothTrace_append :
    ∀ (l : List ℚ) (p : Option ℚ) (r : ℚ),
      smoothTrace p (l ++ [r]) = smoothTrace p l ++ [smoothStep (smoothAcc p l) r] := by
  intro l
  induction l with
  | nil => intro p r; simp [smoothTrace, smoothAcc]
  | cons a l ih =>
    intro p r
    simp only [List.cons_append, smoothTrace, List.append_eq]
    rw [ih]
    rfl

/-- The smoothed trace has one entry per raw sample. -/
theorem smoothTrace_length : ∀ (l : List ℚ) (p : Option ℚ),
    (smoothTrace p l).length = l.length := by
  intro l
  induction l with
  | nil => intro p; rfl
  | cons a l ih => intro p; simp [smoothTrace, ih]

/-- Fields of `detectBody` on a detected frame after calibration is
over: the smoothing state and frame counter advance, and the calibration
window and baseline are untouched, in every branch. -/
theorem detectBody_active_fields (th sp : ℚ) (s : TrackState) (v : ℚ)
    (hfc : ¬ (s.frameCount + 1 ≤ CALIBRATION_FRAMES)) :
    ((detectBody th sp s (some v)).1).frameCount = s.frameCount + 1 ∧
    ((detectBody th sp s (some v)).1).smoothedY = some (smoothStep s.smoothedY v) ∧
    ((detectBody th sp s (some v)).1).calibrationData = s.calibrationData ∧
    ((detectBody th sp s (some v)).1).baselineY = s.baselineY ∧
    ((detectBody th sp s (some v)).1).isTracking = s.isTracking ∧
    ((detectBody th sp s (some v)).1).stream = s.stream := by
  rw [detectBody]
  rcases hb : s.baselineY with _ | b <;> rcases hlk : s.scrollLock <;>
    simp only [hb, hlk, hfc, if_false] <;>
    (try split) <;> refine ⟨?_, ?_, ?_, ?_, ?_, ?_⟩ <;> first | rfl | trivial

/-- One detected or undetected frame preserves the calibration
invariant. -/
theorem detectStep_calibInv (th sp : ℚ) {s : TrackState} {raws : List ℚ}
    (hinv : CalibInv s raws) (det : Option ℚ) :
    CalibInv (detectStep th sp s det).1 (raws ++ det.toList) := by
  obtain ⟨htr, hfc, hsm, hcd, hbl⟩ := hinv
  rw [detectStep, if_pos (by rw [htr])]
  cases det with
  | none =>
    simp only [Option.toList, List.append_nil]
    rw [detectBody]
    refine ⟨?_, ?_, ?_, ?_, ?_⟩ <;>
      · split <;> simp [htr, hfc, hsm, hcd, hbl]
  | some v =>
    simp only [Option.toList]
    have htr' : smoothTrace none (raws ++ [v])
        = smoothTrace none raws ++ [smoothStep (smoothAcc none raws) v] :=
      smoothTrace_append raws none v
    have hlen : (smoothTrace none raws).length = raws.length :=
      smoothTrace_length raws none
    have hsm2 : smoothStep s.smoothedY v = smoothStep (smoothAcc none raws) v := by
      rw [hsm]
    by_cases hle : s.frameCount + 1 ≤ CALIBRATION_FRAMES
    · -- still calibrating on this frame
      have hlt : raws.length + 1 ≤ CALIBRATION_FRAMES := by rw [← hfc]; exact hle
      have htake : (smoothTrace none raws).take CALIBRATION_FRAMES
          = smoothTrace none raws :=
        List.take_of_length_le (by omega)
      have htake2 : (smoothTrace none (raws ++ [v])).take CALIBRATION_FRAMES
          = smoothTrace none (raws ++ [v]) := by
        apply List.take_of_length_le
        rw [htr']
        simp only [List.length_append, List.length_singleton, hlen]
        omega
      have hcd2 : s.calibrationData ++ [smoothStep s.smoothedY v]
          = smoothTrace none (raws ++ [v]) := by
        rw [hcd, htake, hsm2, htr']
      have hlen2 : (s.calibrationData ++ [smoothStep s.smoothedY v]).length
          = raws.length + 1 := by
        rw [hcd, htake]
        simp [hlen]
      rw [detectBody]
      rw [if_pos hle]
      by_cases heq : s.frameCount + 1 = CALIBRATION_FRAMES
      · rw [if_pos heq]
        have heq2 : raws.length + 1 = CALIBRATION_FRAMES := by rw [← hfc]; exact heq
        refine ⟨htr, ?_, ?_, ?_, ?_⟩
        · show s.frameCount + 1 = (raws ++ [v]).length
          rw [hfc]; simp
        · show some (smoothStep s.smoothedY v) = smoothAcc none (raws ++ [v])
          rw [hsm2, smoothAcc_append]
        · show s.calibrationData ++ [smoothStep s.smoothedY v]
            = (smoothTrace none (raws ++ [v])).take CALIBRATION_FRAMES
          rw [hcd2, htake2]
        · show some ((s.calibrationData ++ [smoothStep s.smoothedY v]).sum /
              ((s.calibrationData ++ [smoothStep s.smoothedY v]).length : ℚ)) = _
          rw [if_pos (by simp only [List.length_append, List.length_singleton]; omega)]
          rw [show ((s.calibrationData ++ [smoothStep s.smoothedY v]).length : ℚ)
            = (CALIBRATION_FRAMES : ℚ) from by rw [hlen2.trans heq2]]
          rw [hcd2, htake2]
      · rw [if_neg heq]
        have hne2 : ¬ (raws.length + 1 = CALIBRATION_FRAMES) := by
          rw [← hfc]; exact heq
        refine ⟨htr, ?_, ?_, ?_, ?_⟩
        · show s.frameCount + 1 = (raws ++ [v]).length
          rw [hfc]; simp
        · show some (smoothStep s.smoothedY v) = smoothAcc none (raws ++ [v])
          rw [hsm2, smoothAcc_append]
        · show s.calibrationData ++ [smoothStep s.smoothedY v]
            = (smoothTrace none (raws ++ [v])).take CALIBRATION_FRAMES
          rw [hcd2, htake2]
        · show s.baselineY = _
          rw [hbl, if_neg (by omega),
            if_neg (by simp only [List.length_append, List.length_singleton]; omega)]
    · -- active phase
      have hge : CALIBRATION_FRAMES ≤ raws.length := by
        rw [← hfc]; omega
      obtain ⟨h1, h2, h3, h4, h5, _⟩ := detectBody_active_fields th sp s v hle
      have htake3 : (smoothTrace none (raws ++ [v])).take CALIBRATION_FRAMES
          = (smoothTrace none raws).take CALIBRATION_FRAMES := by
        rw [htr']
        exact List.take_append_of_le_length (by omega)
      refine ⟨?_, ?_, ?_, ?_, ?_⟩
      · show ((detectBody th sp s (some v)).1).isTracking = true
        rw [h5, htr]
      · show ((detectBody th sp s (some v)).1).frameCount = (raws ++ [v]).length
        rw [h1, hfc]; simp
      · show ((detectBody th sp s (some v)).1).smoothedY = smoothAcc none (raws ++ [v])
        rw [h2, hsm2, smoothAcc_append]
      · show ((detectBody th sp s (some v)).1).calibrationData
            = (smoothTrace none (raws ++ [v])).take CALIBRATION_FRAMES
        rw [h3, hcd, htake3]
      · show ((detectBody th sp s (some v)).1).baselineY = _
        rw [h4, hbl, if_pos hge,
          if_pos (show CALIBRATION_FRAMES ≤ (raws ++ [v]).length by
            simp only [List.length_append, List.length_singleton]; omega),
          htake3]

/-- The calibration invariant holds after any sequence of frames from a
fresh session. -/
theorem runFrames_calibInv (th sp : ℚ) (dets : List (Option ℚ)) :
    CalibInv (runFrames th sp initState dets).1 (dets.filterMap id) := by
  induction dets using List.reverseRecOn with
  | nil =>
    show CalibInv initState []
    refine ⟨rfl, rfl, rfl, rfl, ?_⟩
    rw [if_neg (by simp [CALIBRATION_FRAMES])]
    rfl
  | append_singleton ds d ih =>
    have hmap : (ds ++ [d]).map Event.frame = ds.map Event.frame ++ [Event.frame d] := by
      simp
    have hfm : (ds ++ [d]).filterMap id = ds.filterMap id ++ d.toList := by
      rw [List.filterMap_append]
      cases d <;> rfl
    rw [runFrames, hmap, runEvents_append, hfm]
    have hstep : (runEvents th sp (runFrames th sp initState ds).1 [Event.frame d]).1
        = (detectStep th sp (runFrames th sp initState ds).1 d).1 := by
      simp [runEvents, stepEvent]
    simp only []
    rw [show (runEvents th sp (runEvents th sp initState (ds.map Event.frame)).1
        [Event.frame d]).1
      = (detectStep th sp (runEvents th sp initState (ds.map Event.frame)).1 d).1 by
        simp [runEvents, stepEvent]]
    exact detectStep_calibInv th sp ih d

/-- Once the calibration window is full, no event ever changes the
baseline again. -/
theorem stepEvent_baseline_stable (th sp : ℚ) (s : TrackState) (e : Event)
    (hfc : CALIBRATION_FRAMES ≤ s.frameCount) :
    ((stepEvent th sp s e).1).baselineY = s.baselineY := by
  cases e with
  | frame det =>
    rw [stepEvent, detectStep]
    by_cases htr : s.isTracking
    · rw [if_pos htr]
      cases det with
      | none =>
        simp only [detectBody]
        split <;> rfl
      | some v =>
        have hle : ¬ (s.frameCount + 1 ≤ CALIBRATION_FRAMES) := by omega
        have := (detectBody_active_fields th sp s v hle).2.2.2.1
        simpa using this
    · rw [if_neg htr]
  | lockFire => rfl
  | statusFire =>
    rw [stepEvent, statusTimerFire]
    split <;> rfl
  | stopEv => rfl

/-- A stopped session stays stopped and emits no actions, whatever events
arrive. -/
theorem runEvents_stopped (th sp : ℚ) :
    ∀ (evs : List Event) (s : TrackState), s.isTracking = false →
      (runEvents th sp s evs).2 = [] ∧ ((runEvents th sp s evs).1).isTracking = false := by
  intro evs
  induction evs with
  | nil => intro s hs; exact ⟨rfl, hs⟩
  | cons e es ih =>
    intro s hs
    have hstep : (stepEvent th sp s e).2 = [] ∧ ((stepEvent th sp s e).1).isTracking = false := by
      cases e with
      | frame det =>
        rw [stepEvent, detectStep, if_neg (by rw [hs]; exact Bool.false_ne_true)]
        exact ⟨rfl, hs⟩
      | lockFire => exact ⟨rfl, hs⟩
      | statusFire =>
        refine ⟨rfl, ?_⟩
        rw [stepEvent, statusTimerFire]
        split <;> simpa using hs
      | stopEv => exact ⟨rfl, rfl⟩
    have := ih (stepEvent th sp s e).1 hstep.2
    rw [runEvents]
    simp only [hstep.1, this.1, List.nil_append]
    refine ⟨?_, this.2⟩
    first | rfl | trivial

/-- Behaviour of one frame in the active phase when the lock is free and
the displacement beats the threshold: exactly one scroll action is
emitted, the lock is taken and both timers are armed. -/
theorem detectStep_fire (th sp : ℚ) (s : TrackState) (b v : ℚ)
    (htr : s.isTracking = true) (hfca : CALIBRATION_FRAMES ≤ s.frameCount)
    (hb : s.baselineY = some b) (hlk : s.scrollLock = false)
    (hexc : th < |smoothStep s.smoothedY v - b|) :
    (detectStep th sp s (some v)).2
        = [Action.scroll (scrollSigned (smoothStep s.smoothedY v - b) th sp)] ∧
    ((detectStep th sp s (some v)).1).isTracking = s.isTracking ∧
    ((detectStep th sp s (some v)).1).frameCount = s.frameCount + 1 ∧
    ((detectStep th sp s (some v)).1).baselineY = s.baselineY ∧
    ((detectStep th sp s (some v)).1).smoothedY = some (smoothStep s.smoothedY v) ∧
    ((detectStep th sp s (some v)).1).scrollLock = true ∧
    ((detectStep th sp s (some v)).1).statusSt
        = Status.scrolling (decide (0 < smoothStep s.smoothedY v - b))
            (jsRound |smoothStep s.smoothedY v - b|) ∧
    ((detectStep th sp s (some v)).1).lockTimerPending = true ∧
    ((detectStep th sp s (some v)).1).statusTimerPending = true := by
  have hle : ¬ (s.frameCount + 1 ≤ CALIBRATION_FRAMES) := by omega
  rw [detectStep, if_pos (by rw [htr]), detectBody, if_neg hle]
  simp only [hb, hlk]
  rw [if_pos hexc]
  exact ⟨rfl, rfl, rfl, rfl, rfl, rfl, rfl, rfl, rfl⟩

/-- Behaviour of one frame in the active phase while the lock is held:
no action is emitted; smoothing and the frame counter still advance. -/
theorem detectStep_locked (th sp : ℚ) (s : TrackState) (v : ℚ)
    (htr : s.isTracking = true) (hfca : CALIBRATION_FRAMES ≤ s.frameCount)
    (hlock : s.scrollLock = true) :
    (detectStep th sp s (some v)).2 = [] ∧
    ((detectStep th sp s (some v)).1).isTracking = s.isTracking ∧
    ((detectStep th sp s (some v)).1).frameCount = s.frameCount + 1 ∧
    ((detectStep th sp s (some v)).1).baselineY = s.baselineY ∧
    ((detectStep th sp s (some v)).1).smoothedY = some (smoothStep s.smoothedY v) ∧
    ((detectStep th sp s (some v)).1).scrollLock = s.scrollLock := by
  have hle : ¬ (s.frameCount + 1 ≤ CALIBRATION_FRAMES) := by omega
  rw [detectStep, if_pos (by rw [htr]), detectBody, if_neg hle]
  rcases hbt : s.baselineY with _ | bb <;> simp only [hbt, hlock] <;>
    refine ⟨?_, ?_, ?_, ?_, ?_, ?_⟩ <;> first | rfl | trivial

/-- A locked state emits no scroll action whatever the detection result
of the frame is. -/
theorem detectStep_lock_no_action (th sp : ℚ) (t : TrackState) (det : Option ℚ)
    (hlock : t.scrollLock = true) :
    (detectStep th sp t det).2 = [] := by
  rw [detectStep]
  by_cases htt : t.isTracking
  · rw [if_pos htt]
    cases det with
    | none =>
      rw [detectBody]
      split <;> rfl
    | some v =>
      rw [detectBody]
      by_cases hle : t.frameCount + 1 ≤ CALIBRATION_FRAMES
      · rw [if_pos hle]
        split <;> rfl
      · rw [if_neg hle]
        rcases hbt : t.baselineY with _ | bb <;> simp only [hbt, hlock] <;> rfl
  · rw [if_neg htt]

/-! ## Claim theorems -/

/-- C1: in every session, the calibration phase (baseline still unset)
lasts while fewer than 90 detected samples arrived; exactly on the 90th
detected sample the baseline is set to the arithmetic mean of the first
90 smoothed samples (so to V itself when they all equal V), the state
machine thereby transitioning from Calibrating to Active; and once the
window is full no later event ever changes the baseline. -/
theorem c1_calibration (th sp V : ℚ) (dets : List (Option ℚ)) (s : TrackState)
    (e : Event) :
    ((dets.filterMap id).length < CALIBRATION_FRAMES →
      ((runFrames th sp initState dets).1).baselineY = none) ∧
    (CALIBRATION_FRAMES ≤ (dets.filterMap id).length →
      ((runFrames th sp initState dets).1).baselineY
        = some (((smoothTrace none (dets.filterMap id)).take CALIBRATION_FRAMES).sum /
            (CALIBRATION_FRAMES : ℚ))) ∧
    (CALIBRATION_FRAMES ≤ (dets.filterMap id).length →
      (∀ x ∈ (smoothTrace none (dets.filterMap id)).take CALIBRATION_FRAMES, x = V) →
      ((runFrames th sp initState dets).1).baselineY = some V) ∧
    (CALIBRATION_FRAMES ≤ s.frameCount →
      ((stepEvent th sp s e).1).baselineY = s.baselineY) := by
  obtain ⟨_, _, _, _, hbl⟩ := runFrames_calibInv th sp dets
  refine ⟨?_, ?_, ?_, ?_⟩
  · intro hlt
    rw [hbl, if_neg (by omega)]
  · intro hge
    rw [hbl, if_pos hge]
  · intro hge hall
    rw [hbl, if_pos hge]
    have hlen : ((smoothTrace none (dets.filterMap id)).take CALIBRATION_FRAMES).length
        = CALIBRATION_FRAMES := by
      rw [List.length_take, smoothTrace_length]
      omega
    have hsum : ((smoothTrace none (dets.filterMap id)).take CALIBRATION_FRAMES).sum
        = (CALIBRATION_FRAMES : ℚ) * V := by
      rw [List.sum_eq_card_nsmul _ V hall, hlen]
      simp [nsmul_eq_mul]
    rw [hsum, mul_div_cancel_left₀ _ (by norm_num [CALIBRATION_FRAMES] :
      ((CALIBRATION_FRAMES : ℕ) : ℚ) ≠ 0)]
  · exact fun hge => stepEvent_baseline_stable th sp s e hge

/-- C1 witness: ninety identical detections of 5 calibrate the baseline
to exactly 5. -/
theorem c1_calibration_witness :
    ((runFrames 25 80 initState (List.replicate 90 (some 5))).1).baselineY = some 5 :=
  (c1_calibration 25 80 5 (List.replicate 90 (some 5)) initState Event.lockFire).2.2.1
    (by decide) (by decide)

/-- C2: when an active, unlocked frame beats the threshold, the emitted
scroll is exactly the spec's translation — magnitude
`round(min(|d| / t, 4) * s)`, direction down iff the displacement is
positive — and at threshold 25, speed 80, displacement 50 the intensity
is 2, the magnitude 160 and the direction down. -/
theorem c2_gesture_translator (th sp : ℚ) (s : TrackState) (b faceY : ℚ)
    (htr : s.isTracking = true)
    (hfca : CALIBRATION_FRAMES ≤ s.frameCount)
    (hb : s.baselineY = some b)
    (hlk : s.scrollLock = false)
    (hth : 0 < th)
    (hexc : th < |smoothStep s.smoothedY faceY - b|) :
    (detectStep th sp s (some faceY)).2
      = [Action.scroll
          (if (specTranslate (smoothStep s.smoothedY faceY - b) th sp).2
           then (specTranslate (smoothStep s.smoothedY faceY - b) th sp).1
           else -((specTranslate (smoothStep s.smoothedY faceY - b) th sp).1))] ∧
    ((detectStep th sp s (some faceY)).1).statusSt
      = Status.scrolling (specTranslate (smoothStep s.smoothedY faceY - b) th sp).2
          (jsRound |smoothStep s.smoothedY faceY - b|) ∧
    scrollIntensity 50 25 = 2 ∧
    scrollAmount 50 25 80 = 160 ∧
    (specTranslate 50 25 80).2 = true := by
  obtain ⟨hact, _, _, _, _, _, hst, _, _⟩ :=
    detectStep_fire th sp s b faceY htr hfca hb hlk hexc
  refine ⟨?_, ?_, by decide, by decide, by decide⟩
  · rw [hact]
    by_cases hpos : 0 < smoothStep s.smoothedY faceY - b
    · rw [scrollSigned, if_pos hpos,
        if_pos (show (specTranslate (smoothStep s.smoothedY faceY - b) th sp).2 by
          simp [specTranslate, hpos])]
      rfl
    · rw [scrollSigned, if_neg hpos,
        if_neg (show ¬ (specTranslate (smoothStep s.smoothedY faceY - b) th sp).2 = true by
          simp [specTranslate, hpos])]
      rfl
  · rw [hst]
    rfl

/-- C2 witness: the concrete instance demanded by the spec. -/
theorem c2_gesture_translator_witness :
    scrollIntensity 50 25 = 2 ∧ scrollAmount 50 25 80 = 160 ∧
    (specTranslate 50 25 80).2 = true :=
  ⟨(c2_gesture_translator 25 80 activeState 100 200 rfl (by decide) rfl rfl
      (by decide) (by decide)).2.2.1,
   (c2_gesture_translator 25 80 activeState 100 200 rfl (by decide) rfl rfl
      (by decide) (by decide)).2.2.2.1,
   (c2_gesture_translator 25 80 activeState 100 200 rfl (by decide) rfl rfl
      (by decide) (by decide)).2.2.2.2⟩

/-- C3: while the scroll lock is set no new scroll action fires; in the
active phase, two consecutive threshold-beating frames produce exactly
one action (the second arrives with the lock still held), and a third
threshold-beating frame arriving after the lock-release timer fires
produces a second action. -/
theorem c3_scroll_lock (th sp : ℚ) (s : TrackState) (b d1 d2 d3 : ℚ)
    (htr : s.isTracking = true)
    (hfca : CALIBRATION_FRAMES ≤ s.frameCount)
    (hb : s.baselineY = some b)
    (hlk : s.scrollLock = false)
    (hexc1 : th < |smoothStep s.smoothedY d1 - b|)
    (hexc2 : th < |smoothStep (some (smoothStep s.smoothedY d1)) d2 - b|)
    (hexc3 : th <
      |smoothStep (some (smoothStep (some (smoothStep s.smoothedY d1)) d2)) d3 - b|) :
    (∀ (t : TrackState) (det : Option ℚ), t.scrollLock = true →
      (detectStep th sp t det).2 = []) ∧
    (runEvents th sp s
      [Event.frame (some d1), Event.frame (some d2)]).2.length = 1 ∧
    (runEvents th sp s
      [Event.frame (some d1), Event.frame (some d2), Event.lockFire,
       Event.frame (some d3)]).2.length = 2 := by
  obtain ⟨hA1, hS1tr, hS1fc, hS1bl, hS1sm, hS1lk, _, _, _⟩ :=
    detectStep_fire th sp s b d1 htr hfca hb hlk hexc1
  obtain ⟨hA2, hS2tr, hS2fc, hS2bl, hS2sm, hS2lk⟩ :=
    detectStep_locked th sp (detectStep th sp s (some d1)).1 d2
      (by rw [hS1tr, htr]) (by omega) (by rw [hS1lk])
  have hS3 : lockTimerFire (detectStep th sp (detectStep th sp s (some d1)).1 (some d2)).1
      = { (detectStep th sp (detectStep th sp s (some d1)).1 (some d2)).1 with
          scrollLock := false, lockTimerPending := false } := rfl
  obtain ⟨hA4, _, _, _, _, _, _, _, _⟩ :=
    detectStep_fire th sp
      (lockTimerFire (detectStep th sp (detectStep th sp s (some d1)).1 (some d2)).1)
      b d3
      (by rw [hS3]; show _ = true; rw [hS2tr, hS1tr, htr])
      (by rw [hS3]; show CALIBRATION_FRAMES ≤ _; rw [hS2fc, hS1fc]; omega)
      (by rw [hS3]; show _ = some b; rw [hS2bl, hS1bl, hb])
      (by rw [hS3])
      (by rw [hS3]; show th < |smoothStep _ d3 - b|; rw [hS2sm, hS1sm]; exact hexc3)
  refine ⟨fun t det hlock => detectStep_lock_no_action th sp t det hlock, ?_, ?_⟩
  · show ((detectStep th sp s (some d1)).2
      ++ ((detectStep th sp (detectStep th sp s (some d1)).1 (some d2)).2 ++ [])).length = 1
    rw [hA1, hA2]
    rfl
  · show ((detectStep th sp s (some d1)).2
      ++ ((detectStep th sp (detectStep th sp s (some d1)).1 (some d2)).2
        ++ ([] ++ ((detectStep th sp
            (lockTimerFire (detectStep th sp (detectStep th sp s (some d1)).1 (some d2)).1)
            (some d3)).2 ++ [])))).length = 2
    rw [hA1, hA2, hA4]
    rfl

/-- C3 witness: from a calibrated state at baseline 100 each raw
detection of 200 beats the threshold; frames one and two yield one
action, and after the lock timer fires a third frame yields the second. -/
theorem c3_scroll_lock_witness :
    (runEvents 25 80 activeState
      [Event.frame (some 200), Event.frame (some 200)]).2.length = 1 ∧
    (runEvents 25 80 activeState
      [Event.frame (some 200), Event.frame (some 200), Event.lockFire,
       Event.frame (some 200)]).2.length = 2 :=
  ⟨(c3_scroll_lock 25 80 activeState 100 200 200 200 rfl (by decide) rfl rfl
      (by decide) (by decide) (by decide)).2.1,
   (c3_scroll_lock 25 80 activeState 100 200 200 200 rfl (by decide) rfl rfl
      (by decide) (by decide) (by decide)).2.2⟩

/-- C4: if no scanned region passes the survival filter the scorer
returns none (in both the popup final and the worker version);
otherwise both return the vertical center of a surviving region whose
final score majorises every survivor. -/
theorem c4_region_scorer (sq : ℚ → ℚ) (data : List ℕ) (w h : ℕ) :
    ((∀ r ∈ popupRegions data w h, qualifies r = false) →
      popupDetect sq data w h = none ∧ workerDetect sq data w h = none) ∧
    ((∃ r ∈ popupRegions data w h, qualifies r = true) →
      ∃ best ∈ (popupRegions data w h).filter qualifies,
        popupDetect sq data w h = some best.y ∧
        workerDetect sq data w h = some best.y ∧
        ∀ r ∈ (popupRegions data w h).filter qualifies,
          pFinalScore sq w h r ≤ pFinalScore sq w h best) := by
  constructor
  · intro hnone
    have hfil : (popupRegions data w h).filter qualifies = [] := by
      rw [List.filter_eq_nil_iff]
      intro r hr
      rw [hnone r hr]
      simp
    constructor
    · rw [popupDetect_eq, hfil]
    · rw [workerDetect_eq_popupDetect, popupDetect_eq, hfil]
  · rintro ⟨r, hr, hq⟩
    have hmem : r ∈ (popupRegions data w h).filter qualifies :=
      List.mem_filter.mpr ⟨hr, hq⟩
    cases hfil : (popupRegions data w h).filter qualifies with
    | nil =>
      rw [hfil] at hmem
      simp at hmem
    | cons r0 rs =>
      refine ⟨argmaxFirst (pFinalScore sq w h) r0 rs, ?_, ?_, ?_, ?_⟩
      · exact argmaxFirst_mem _ rs r0
      · rw [popupDetect_eq, hfil]
      · rw [workerDetect_eq_popupDetect, popupDetect_eq, hfil]
      · intro r2 hr2
        exact argmaxFirst_le _ rs r0 r2 hr2

/-- C4 witness: the all-black buffer yields none from both scorers, and
the uniform skin-tone buffer yields a best surviving region. -/
theorem c4_region_scorer_witness :
    (popupDetect (fun q => q) zeroBuf 4 4 = none ∧
     workerDetect (fun q => q) zeroBuf 4 4 = none) ∧
    (∃ best ∈ (popupRegions skinBuf 4 4).filter qualifies,
      popupDetect (fun q => q) skinBuf 4 4 = some best.y ∧
      workerDetect (fun q => q) skinBuf 4 4 = some best.y ∧
      ∀ r ∈ (popupRegions skinBuf 4 4).filter qualifies,
        pFinalScore (fun q => q) 4 4 r ≤ pFinalScore (fun q => q) 4 4 best) :=
  ⟨(c4_region_scorer (fun q => q) zeroBuf 4 4).1 (by decide),
   (c4_region_scorer (fun q => q) skinBuf 4 4).2 (by decide)⟩

/-- C5: on the raw input sequence 10, 20, 20, 20, ... the temporal
filter's output has the closed form `20 - 10 * (7/10)^n`, is strictly
monotonically increasing toward 20, and never exceeds 20 at any index. -/
theorem c5_temporal_filter (n : ℕ) :
    c5smoothed n = 20 - 10 * (7 / 10 : ℚ) ^ n ∧
    c5smoothed n < c5smoothed (n + 1) ∧
    c5smoothed n < 20 := by
  have closed : ∀ m : ℕ, c5smoothed m = 20 - 10 * (7 / 10 : ℚ) ^ m := by
    intro m
    induction m with
    | zero => norm_num [c5smoothed, c5raw, smoothStep]
    | succ k ih =>
      show smoothStep (some (c5smoothed k)) (c5raw (k + 1)) = _
      rw [smoothStep, ih, c5raw, if_neg (Nat.succ_ne_zero k), SMOOTHING_FACTOR,
        pow_succ]
      norm_num
      ring
  have hpow : (0 : ℚ) < (7 / 10 : ℚ) ^ n := by positivity
  refine ⟨closed n, ?_, ?_⟩
  · rw [closed n, closed (n + 1), pow_succ]
    nlinarith [hpow]
  · rw [closed n]
    nlinarith [hpow]

/-- C6: the tier selector tries hardware detection, then the worker
channel, then — only when no channel exists — the synchronous scorer,
short-circuiting on the first position; a submission to a
never-established channel resolves to none; and a frame on which every
tier yields none produces none without ending the session. -/
theorem c6_tier_selector (env : DetectEnv) (th sp : ℚ) (s : TrackState) :
    (∀ box : ℚ × ℚ, env.faceBox = some (some box) →
      tierDetect env = some ((box.1 + box.2 / 2) * (env.canvasH / env.videoH))) ∧
    (∀ y : ℚ, tier1Y env = none → env.workerChan = some (some y) →
      tierDetect env = some y) ∧
    (tier1Y env = none → env.workerChan = some none → tierDetect env = none) ∧
    detectFaceInWorker none = none ∧
    (tier1Y env = none → env.workerChan = none → tierDetect env = env.syncDetect) ∧
    (tier1Y env = none → detectFaceInWorker env.workerChan = none →
      env.syncDetect = none → tierDetect env = none) ∧
    (s.isTracking = true →
      ((detectStep th sp s none).1).isTracking = true ∧
      (detectStep th sp s none).2 = []) := by
  refine ⟨?_, ?_, ?_, rfl, ?_, ?_, ?_⟩
  · intro box hbox
    rw [tierDetect, tier1Y, hbox]
  · intro y h1 h2
    rw [tierDetect, h1, h2]
    rfl
  · intro h1 h2
    rw [tierDetect, h1, h2]
    rfl
  · intro h1 h2
    rw [tierDetect, h1, h2]
    rfl
  · intro h1 h2 h3
    rw [tierDetect, h1, h2]
    cases hwc : env.workerChan with
    | none => exact h3
    | some r => rfl
  · intro htr
    rw [detectStep, if_pos (by rw [htr]), detectBody]
    constructor
    · show (if CALIBRATION_FRAMES < s.frameCount then _ else _ : TrackState × List Action).1.isTracking = true
      split <;> · show s.isTracking = true; exact htr
    · split <;> rfl

/-- C6 witness: with no capability at all the chain yields none, and the
undetected frame leaves the fresh session tracking. -/
theorem c6_tier_selector_witness :
    tierDetect bareEnv = none ∧
    ((detectStep 25 80 initState none).1).isTracking = true :=
  ⟨(c6_tier_selector bareEnv 25 80 initState).2.2.2.2.2.1 rfl rfl rfl,
   ((c6_tier_selector bareEnv 25 80 initState).2.2.2.2.2.2 rfl).1⟩

/-- C7: a frame with no detection changes none of the tracking state —
frame counter, calibration window, smoothing state, baseline and lock
all keep their values — emits no action, and, after calibration is
complete, surfaces the no-subject status. -/
theorem c7_no_detection_frame (th sp : ℚ) (s : TrackState)
    (htr : s.isTracking = true) :
    ((detectStep th sp s none).1).frameCount = s.frameCount ∧
    ((detectStep th sp s none).1).calibrationData = s.calibrationData ∧
    ((detectStep th sp s none).1).smoothedY = s.smoothedY ∧
    ((detectStep th sp s none).1).baselineY = s.baselineY ∧
    ((detectStep th sp s none).1).scrollLock = s.scrollLock ∧
    (detectStep th sp s none).2 = [] ∧
    (CALIBRATION_FRAMES < s.frameCount →
      ((detectStep th sp s none).1).statusSt = Status.noFace) := by
  rw [detectStep, if_pos (by rw [htr]), detectBody]
  by_cases hgt : CALIBRATION_FRAMES < s.frameCount
  · rw [if_pos hgt]
    exact ⟨rfl, rfl, rfl, rfl, rfl, rfl, fun _ => rfl⟩
  · rw [if_neg hgt]
    exact ⟨rfl, rfl, rfl, rfl, rfl, rfl, fun hc => absurd hc hgt⟩

/-- C7 witness: an undetected frame in the active phase keeps the state
and surfaces the no-subject status. -/
theorem c7_no_detection_frame_witness :
    ((detectStep 25 80 activeState none).1).baselineY = activeState.baselineY ∧
    (detectStep 25 80 activeState none).2 = [] ∧
    ((detectStep 25 80 activeState none).1).statusSt = Status.noFace :=
  ⟨(c7_no_detection_frame 25 80 activeState rfl).2.2.2.1,
   (c7_no_detection_frame 25 80 activeState rfl).2.2.2.2.2.1,
   (c7_no_detection_frame 25 80 activeState rfl).2.2.2.2.2.2 (by decide)⟩

/-- C8 counterexample: `stopTracking` does not cancel the pending
`setTimeout` callbacks — after a stop from a state with a scroll in
flight, both the lock-release and the status-reset timer are still
pending, contradicting the claim that a stop cancels all pending
timers. -/
theorem c8_stop_counterexample :
    ¬ ((stopTracking lockedState).lockTimerPending = false ∧
       (stopTracking lockedState).statusTimerPending = false) := by
  intro hcon
  exact absurd hcon.1 (by decide)

/-- C8 amended: `stopSession` is idempotent — a second stop changes
nothing — and while the pending lock-release and status-reset timers are
NOT cancelled, no scroll action is pending or can fire after teardown:
every later event emits no action, and the status-reset callback leaves
the status unchanged once tracking is off. -/
theorem c8_stop_idempotent (th sp : ℚ) (s : TrackState) (evs : List Event) :
    stopTracking (stopTracking s) = stopTracking s ∧
    (stopTracking s).lockTimerPending = s.lockTimerPending ∧
    (stopTracking s).statusTimerPending = s.statusTimerPending ∧
    (runEvents th sp (stopTracking s) evs).2 = [] ∧
    (statusTimerFire (stopTracking s)).statusSt = (stopTracking s).statusSt := by
  refine ⟨rfl, rfl, rfl, ?_, ?_⟩
  · exact (runEvents_stopped th sp evs (stopTracking s) rfl).1
  · rw [statusTimerFire, if_neg (by simp [stopTracking])]

/-- C9: on a well-formed buffer (length exactly `4 * width * height`)
the three drift versions of the region scorer — the worker's
filter-as-you-scan version, the popup's collect-then-filter version, and
the popup HEAD bounds-checked version — return the same result. -/
theorem c9_drift_equivalence (sq : ℚ → ℚ) (data : List ℕ) (w h : ℕ)
    (hl : data.length = 4 * w * h) :
    workerDetect sq data w h = popupDetect sq data w h ∧
    popupDetect sq data w h = popupDetectHead sq data w h :=
  ⟨workerDetect_eq_popupDetect sq data w h,
   (popupDetectHead_eq sq data w h hl).symm⟩

/-- C9 witness: the three versions agree on the concrete 4x4 skin-tone
buffer. -/
theorem c9_drift_equivalence_witness :
    workerDetect (fun q => q) skinBuf 4 4 = popupDetect (fun q => q) skinBuf 4 4 ∧
    popupDetect (fun q => q) skinBuf 4 4 = popupDetectHead (fun q => q) skinBuf 4 4 :=
  c9_drift_equivalence (fun q => q) skinBuf 4 4 (by decide)

/-- C10: every region the worker scans accumulates at least one pixel,
so the per-region average-brightness and skin-ratio divisions never
divide by zero even without the HEAD version's `pixelCount > 0` guard. -/
theorem c10_pixel_count (data : List ℕ) (w h : ℕ) (hw : 1 ≤ w) (hh : 1 ≤ h)
    (p : ℕ × ℕ) (hp : p ∈ scanPairs w h) :
    1 ≤ (regionStats data w h p.1 p.2).pixelCount ∧
    ((regionStats data w h p.1 p.2).pixelCount : ℚ) ≠ 0 := by
  obtain ⟨x, y⟩ := p
  obtain ⟨hx, hy⟩ := scanPairs_cond hp
  have hpos := regionStats_pixelCount_pos data hx hy
  refine ⟨?_, ?_⟩
  · show 1 ≤ (regionStats data w h x y).pixelCount
    omega
  · show ((regionStats data w h x y).pixelCount : ℚ) ≠ 0
    exact Nat.cast_ne_zero.mpr (by omega)

/-- C10 witness: the single region scanned in a 1x1 frame holds one
pixel. -/
theorem c10_pixel_count_witness :
    1 ≤ (regionStats [] 1 1 0 0).pixelCount ∧
    ((regionStats [] 1 1 0 0).pixelCount : ℚ) ≠ 0 :=
  c10_pixel_count [] 1 1 (by decide) (by decide) (0, 0) (by decide)

end Knockout
